import Mathlib

/-!
Shallow embedding of `src/routes/api/posts.js` (the posts route module of the
Social-Network-App repository).  Each Express handler becomes a pure Lean
function over an explicit store; JavaScript array operations
(`find`, `filter`, `unshift`, `indexOf` after `map`, `splice`) are embedded as
the list functions below.  Uncaught exceptions thrown outside a handler's
`try` block (so that no HTTP response is ever sent) are modelled by the
distinguished outcome `HttpOutcome.crash`.
-/

/-- A like subdocument: `post.likes` entries hold only the liking user's id
(`post.likes.unshift({ user: req.user.id })`). -/
structure Like where
  user : String
deriving Repr, DecidableEq

/-- A comment subdocument of a post: `{ text, name, avatar, user }` plus the
`id` Mongoose assigns to the subdocument. -/
structure Comment where
  id : String
  text : String
  name : String
  avatar : String
  user : String
deriving Repr, DecidableEq

/-- A post document: `{ text, name, avatar, user }` plus its store-assigned
`id` and the embedded `likes` and `comments` sequences. -/
structure Post where
  id : String
  text : String
  name : String
  avatar : String
  user : String
  likes : List Like
  comments : List Comment
deriving Repr, DecidableEq

/-- Display fields of a user, as returned by `User.findById(..).select('-password')`. -/
structure UserInfo where
  name : String
  avatar : String
deriving Repr, DecidableEq

/-- The persistence store: the `Post` collection, the user directory, and the
predicate deciding which id strings are well-formed ObjectIds (a malformed id
makes `Post.findById` throw an error with `kind === 'ObjectId'`). -/
structure Store where
  posts : List Post
  users : List (String × UserInfo)
  wellFormed : String → Bool

/-- Result of `Post.findById`: a cast error for a malformed id, otherwise the
first document with the given id (or `none`). -/
inductive DbResult (α : Type) where
  | ok (a : α)
  | castError
deriving Repr, DecidableEq

/-- `Post.findById(id)`: throws a `kind === 'ObjectId'` error on a malformed
id, otherwise returns the document with that id or `null`. -/
def findById (s : Store) (id : String) : DbResult (Option Post) :=
  if s.wellFormed id then .ok (s.posts.find? (fun p => p.id == id)) else .castError

/-- `User.findById(id)`: look the user id up in the user directory. -/
def lookupUser (s : Store) (id : String) : Option UserInfo :=
  (s.users.find? (fun u => u.1 == id)).map (fun u => u.2)

/-- `post.save()`: write the (mutated) document back; every stored document
with the same id is replaced by the new version. -/
def save (s : Store) (p : Post) : Store :=
  { s with posts := s.posts.map (fun q => if q.id == p.id then p else q) }

/-- The taxonomy of error responses the handlers produce. -/
inductive ApiError where
  | NotFound
  | Unauthorized
  | ValidationError (errs : List String)
  | AlreadyLiked
  | NotLiked
  | ServerError
deriving Repr, DecidableEq

/-- HTTP status code of each error response. -/
def ApiError.statusCode : ApiError → Nat
  | .NotFound => 404
  | .Unauthorized => 401
  | .ValidationError _ => 400
  | .AlreadyLiked => 400
  | .NotLiked => 400
  | .ServerError => 500

/-- Outcome of one handler invocation: a success response, an error response,
or `crash` — an exception thrown outside the handler's `try` block, so the
handler sends no HTTP response at all. -/
inductive HttpOutcome (α : Type) where
  | ok (a : α)
  | err (e : ApiError)
  | crash
deriving Repr, DecidableEq

/-- JavaScript `Array.prototype.indexOf` restricted to the first argument
position, returning an `Option` index before the `-1` encoding. -/
def jsIndexOfAux (x : String) : List String → Option Nat
  | [] => none
  | s :: l => if s == x then some 0 else (jsIndexOfAux x l).map (fun i => i + 1)

/-- JavaScript `Array.prototype.indexOf`: index of the first occurrence, `-1`
if absent. -/
def jsIndexOf (l : List String) (x : String) : Int :=
  match jsIndexOfAux x l with
  | some i => (i : Int)
  | none => -1

/-- JavaScript `arr.splice(i, 1)`: a negative index counts from the end
(clamped at 0), an index past the end deletes nothing; otherwise the single
element at the index is removed. -/
def jsSplice1 {α : Type} (l : List α) (i : Int) : List α :=
  let start : Nat := if i < 0 then ((l.length : Int) + i).toNat else min i.toNat l.length
  l.take start ++ l.drop (start + 1)

/-- `GET /api/posts/:id`: load the post; `null` gives 404, a cast error
(malformed id, `err.kind === 'ObjectId'`) is caught and also gives 404. -/
def getPost (s : Store) (postId : String) : HttpOutcome Post :=
  match findById s postId with
  | .castError => .err .NotFound
  | .ok none => .err .NotFound
  | .ok (some post) => .ok post

/-- `DELETE /api/posts/:id`: 404 for a missing or malformed id, 401 when the
caller is not the post's owner, otherwise `post.deleteOne()` then a
confirmation message. -/
def deletePost (s : Store) (callerId postId : String) : Store × HttpOutcome String :=
  match findById s postId with
  | .castError => (s, .err .NotFound)
  | .ok none => (s, .err .NotFound)
  | .ok (some post) =>
    if post.user ≠ callerId then (s, .err .Unauthorized)
    else ({ s with posts := s.posts.eraseP (fun q => q.id == post.id) }, .ok "Post removed")

/-- `PUT /api/posts/like/:id`: the handler dereferences `post.likes` with no
null check, and its `catch` has no `ObjectId` branch, so a missing post
(TypeError on `null`) and a malformed id (cast error) both fall through to the
500 response.  A duplicate like gives 400, otherwise the new like is
prepended (`unshift`) and the post saved. -/
def likePost (s : Store) (callerId postId : String) : Store × HttpOutcome (List Like) :=
  match findById s postId with
  | .castError => (s, .err .ServerError)
  | .ok none => (s, .err .ServerError)
  | .ok (some post) =>
    if 0 < (post.likes.filter (fun l => l.user == callerId)).length then
      (s, .err .AlreadyLiked)
    else
      let post1 : Post := { post with likes := ⟨callerId⟩ :: post.likes }
      (save s post1, .ok post1.likes)

/-- `PUT /api/posts/unlike/:id`: same missing-null-check / missing-catch
structure as the like handler; 400 when the caller has no like; otherwise the
remove index is `likes.map(u => u.user).indexOf(callerId)` and
`splice(removeIndex, 1)` removes it. -/
def unlikePost (s : Store) (callerId postId : String) : Store × HttpOutcome (List Like) :=
  match findById s postId with
  | .castError => (s, .err .ServerError)
  | .ok none => (s, .err .ServerError)
  | .ok (some post) =>
    if (post.likes.filter (fun l => l.user == callerId)).length == 0 then
      (s, .err .NotLiked)
    else
      let removeIndex := jsIndexOf (post.likes.map (fun l => l.user)) callerId
      let post1 : Post := { post with likes := jsSplice1 post.likes removeIndex }
      (save s post1, .ok post1.likes)

/-- `POST /api/posts/comment/:id`: when validation fails (empty `text`) the
handler executes `error.array()` — `error` is the import from `'console'`
(line 8), not the `errors` validation result — which throws a TypeError
*outside* the `try` block, so no response is sent (`crash`).  Otherwise the
user is resolved, the post loaded (a `null` user or post throws inside `try`,
giving 500), and the new comment is prepended.  `freshId` is the subdocument
id the store assigns to the new comment. -/
def addComment (s : Store) (callerId postId text freshId : String) :
    Store × HttpOutcome (List Comment) :=
  if text == "" then (s, .crash)
  else
    match lookupUser s callerId with
    | none => (s, .err .ServerError)
    | some u =>
      match findById s postId with
      | .castError => (s, .err .ServerError)
      | .ok none => (s, .err .ServerError)
      | .ok (some post) =>
        let c : Comment := ⟨freshId, text, u.name, u.avatar, callerId⟩
        let post1 : Post := { post with comments := c :: post.comments }
        (save s post1, .ok post1.comments)

/-- `DELETE /api/posts/comment/:id/:comment_id`: the comment is located by its
own id (404 when absent), ownership is checked against its author (401), but
the remove index is then recomputed as
`comments.map(c => c.user).indexOf(callerId)` — the first comment *authored by
the caller*, not the comment that was matched by id.  A `null` post throws
inside `try`, giving 500. -/
def deleteComment (s : Store) (callerId postId commentId : String) :
    Store × HttpOutcome (List Comment) :=
  match findById s postId with
  | .castError => (s, .err .ServerError)
  | .ok none => (s, .err .ServerError)
  | .ok (some post) =>
    match post.comments.find? (fun c => c.id == commentId) with
    | none => (s, .err .NotFound)
    | some comment =>
      if comment.user ≠ callerId then (s, .err .Unauthorized)
      else
        let removeIndex := jsIndexOf (post.comments.map (fun c => c.user)) callerId
        let post1 : Post := { post with comments := jsSplice1 post.comments removeIndex }
        (save s post1, .ok post1.comments)

/-- The data-model invariant: at most one Like per (post, user) pair. -/
def LikeInv (p : Post) : Prop :=
  (p.likes.map (fun l => l.user)).Nodup

instance (p : Post) : Decidable (LikeInv p) := by
  unfold LikeInv; infer_instance

/-- The invariant holding of every post in the store. -/
def storeInv (s : Store) : Prop :=
  ∀ p ∈ s.posts, LikeInv p

instance (s : Store) : Decidable (storeInv s) := by
  unfold storeInv; infer_instance

/-! ### Demonstration store -/

/-- A post by alice with no likes and no comments. -/
def demoPost : Post :=
  { id := "p1", text := "hello", name := "Alice", avatar := "a.png",
    user := "alice", likes := [], comments := [] }

/-- A post by alice already liked by bob and carol. -/
def likedPost : Post :=
  { id := "p2", text := "hi", name := "Alice", avatar := "a.png",
    user := "alice", likes := [⟨"bob"⟩, ⟨"carol"⟩], comments := [] }

/-- A post by alice carrying two comments both authored by alice:
the newer comment `c2` sits before the older comment `c1`. -/
def twoCommentsPost : Post :=
  { id := "p3", text := "x", name := "Alice", avatar := "a.png",
    user := "alice", likes := [],
    comments := [⟨"c2", "newer", "Alice", "a.png", "alice"⟩,
                 ⟨"c1", "older", "Alice", "a.png", "alice"⟩] }

/-- A concrete store holding the three posts above, with every id string
counted as well-formed. -/
def demoStore : Store :=
  { posts := [demoPost, likedPost, twoCommentsPost],
    users := [("alice", ⟨"Alice", "a.png"⟩), ("bob", ⟨"Bob", "b.png"⟩)],
    wellFormed := fun _ => true }

/-! ### Helper lemmas -/

lemma findById_find? (s : Store) (pid : String) (post : Post)
    (h : findById s pid = .ok (some post)) :
    s.posts.find? (fun p => p.id == pid) = some post := by
  unfold findById at h
  by_cases hw : s.wellFormed pid
  · rw [if_pos hw] at h
    injection h
  · rw [if_neg hw] at h
    exact absurd h (by simp)

lemma findById_mem (s : Store) (pid : String) (post : Post)
    (h : findById s pid = .ok (some post)) : post ∈ s.posts :=
  List.mem_of_find?_eq_some (findById_find? s pid post h)

lemma findById_id (s : Store) (pid : String) (post : Post)
    (h : findById s pid = .ok (some post)) : post.id = pid := by
  have := List.find?_some (findById_find? s pid post h)
  exact beq_iff_eq.mp this

lemma findById_wellFormed (s : Store) (pid : String) (post : Post)
    (h : findById s pid = .ok (some post)) : s.wellFormed pid = true := by
  unfold findById at h
  by_cases hw : s.wellFormed pid
  · exact hw
  · rw [if_neg hw] at h
    exact absurd h (by simp)

lemma find?_map_update (pid : String) (post p1 : Post) (hid : p1.id = post.id) :
    ∀ posts : List Post, posts.find? (fun q => q.id == pid) = some post →
      (posts.map (fun q => if q.id == p1.id then p1 else q)).find?
        (fun q => q.id == pid) = some p1 := by
  intro posts
  induction posts with
  | nil => intro h; simp at h
  | cons a l ih =>
    intro h
    by_cases ha : (a.id == pid) = true
    · rw [List.find?_cons_of_pos (p := fun q : Post => q.id == pid) l ha] at h
      have hap : a = post := Option.some.inj h
      have hcond : (a.id == p1.id) = true := by
        rw [beq_iff_eq, hap, hid]
      have hp1 : (p1.id == pid) = true := by
        rw [beq_iff_eq, hid, ← hap]
        exact beq_iff_eq.mp ha
      simp only [List.map_cons, hcond, if_true]
      exact List.find?_cons_of_pos (p := fun q : Post => q.id == pid) _ hp1
    · rw [List.find?_cons_of_neg (p := fun q : Post => q.id == pid) l ha] at h
      have hpost := List.find?_some h
      have hcond : ¬((a.id == p1.id) = true) := by
        rw [beq_iff_eq, hid]
        intro he
        exact ha (by rw [beq_iff_eq, he]; exact beq_iff_eq.mp hpost)
      simp only [List.map_cons, if_neg hcond]
      rw [List.find?_cons_of_neg (p := fun q : Post => q.id == pid) _ ha]
      exact ih h

lemma findById_save (s : Store) (pid : String) (post p1 : Post)
    (h : findById s pid = .ok (some post)) (hid : p1.id = post.id) :
    findById (save s p1) pid = .ok (some p1) := by
  have hw : s.wellFormed pid = true := findById_wellFormed s pid post h
  have hf : s.posts.find? (fun p => p.id == pid) = some post := findById_find? s pid post h
  unfold findById save
  simp only [hw, if_true]
  rw [find?_map_update pid post p1 hid s.posts hf]

lemma jsIndexOfAux_map_eq_findIdx {α : Type} (f : α → String) (x : String) :
    ∀ l : List α, (∃ a ∈ l, f a = x) →
      jsIndexOfAux x (l.map f) = some (l.findIdx (fun a => f a == x)) := by
  intro l
  induction l with
  | nil => intro h; simp at h
  | cons a l ih =>
    intro h
    by_cases hax : f a = x
    · have : (f a == x) = true := beq_iff_eq.mpr hax
      simp [jsIndexOfAux, List.findIdx_cons, this]
    · have hbeq : (f a == x) = false := by
        simp [beq_iff_eq, hax]
      have htail : ∃ b ∈ l, f b = x := by
        rcases h with ⟨b, hb, hfb⟩
        rcases List.mem_cons.mp hb with rfl | hbl
        · exact absurd hfb hax
        · exact ⟨b, hbl, hfb⟩
      simp [jsIndexOfAux, List.findIdx_cons, hbeq, ih htail]

lemma jsIndexOf_map_eq_findIdx {α : Type} (f : α → String) (x : String) (l : List α)
    (h : ∃ a ∈ l, f a = x) :
    jsIndexOf (l.map f) x = ((l.findIdx (fun a => f a == x) : Nat) : Int) := by
  unfold jsIndexOf
  rw [jsIndexOfAux_map_eq_findIdx f x l h]

lemma jsSplice1_natCast {α : Type} (l : List α) (j : Nat) (hj : j < l.length) :
    jsSplice1 l (j : Int) = l.eraseIdx j := by
  unfold jsSplice1
  have h0 : ¬((j : Int) < 0) := by
    exact of_decide_eq_false (by simp)
  simp only [if_neg h0, Int.toNat_natCast]
  rw [Nat.min_eq_left (Nat.le_of_lt hj)]
  rw [List.eraseIdx_eq_take_drop_succ]

lemma take_drop_succ_sublist {α : Type} (l : List α) (n : Nat) :
    (l.take n ++ l.drop (n + 1)).Sublist l := by
  have hdrop : l.drop (n + 1) = (l.drop n).drop 1 := by
    rw [List.drop_drop]
  have h1 : (l.take n ++ l.drop (n + 1)).Sublist (l.take n ++ l.drop n) := by
    rw [hdrop]
    exact List.Sublist.append_left (List.drop_sublist 1 (l.drop n)) (l.take n)
  rw [List.take_append_drop] at h1
  exact h1

lemma jsSplice1_sublist {α : Type} (l : List α) (i : Int) :
    (jsSplice1 l i).Sublist l := by
  unfold jsSplice1
  exact take_drop_succ_sublist l _

/-! ### Claim theorems -/

/-- C9: for every postId that is malformed (not a well-formed identifier) or
does not resolve to an existing post, GetPost yields NotFound and never
ServerError. -/
theorem getPost_missing_or_malformed_notFound (s : Store) (pid : String)
    (h : s.wellFormed pid = false ∨ s.posts.find? (fun p => p.id == pid) = none) :
    getPost s pid = .err .NotFound ∧ getPost s pid ≠ .err .ServerError := by
  have hmain : getPost s pid = .err .NotFound := by
    unfold getPost findById
    rcases h with h | h
    · simp [h]
    · by_cases hw : s.wellFormed pid = true
      · simp [hw, h]
      · simp [hw]
  refine ⟨hmain, ?_⟩
  rw [hmain]
  simp

/-- C9 witness: a concrete id resolving to no post in the demonstration
store. -/
theorem getPost_missing_or_malformed_notFound_witness :
    (demoStore.wellFormed "zzz" = false ∨
      demoStore.posts.find? (fun p => p.id == "zzz") = none) ∧
    (getPost demoStore "zzz" = .err .NotFound ∧
     getPost demoStore "zzz" ≠ .err .ServerError) :=
  ⟨Or.inr (by decide),
   getPost_missing_or_malformed_notFound demoStore "zzz" (Or.inr (by decide))⟩

/-- C3 counterexample: on a store where no post has id "zzz", LikePost
responds with ServerError, not NotFound — the like handler has no
post-existence check and its catch has no `ObjectId` branch. -/
theorem likePost_missing_counterexample :
    (likePost demoStore "bob" "zzz").2 = .err .ServerError ∧
    (likePost demoStore "bob" "zzz").2 ≠ .err .NotFound := by
  constructor
  · decide
  · decide

/-- C3 (amended): for every callerId and postId that is malformed or does not
resolve to an existing post, LikePost fails with ServerError (HTTP 500),
leaving the store unchanged. -/
theorem likePost_missing_serverError (s : Store) (uid pid : String)
    (h : s.wellFormed pid = false ∨ s.posts.find? (fun p => p.id == pid) = none) :
    likePost s uid pid = (s, .err .ServerError) := by
  unfold likePost findById
  rcases h with h | h
  · simp [h]
  · by_cases hw : s.wellFormed pid = true
    · simp [hw, h]
    · simp [hw]

/-- C3 amended-claim witness: the concrete missing id again. -/
theorem likePost_missing_serverError_witness :
    (demoStore.posts.find? (fun p => p.id == "zzz") = none) ∧
    likePost demoStore "bob" "zzz" = (demoStore, .err .ServerError) :=
  ⟨by decide, likePost_missing_serverError demoStore "bob" "zzz" (Or.inr (by decide))⟩

/-- C8: for every existing post and caller different from the post's owner,
DeletePost fails with Unauthorized, the store is unchanged, and the post
(with all its likes and comments) is still returned by GetPost. -/
theorem deletePost_nonOwner_unauthorized (s : Store) (uid pid : String) (post : Post)
    (h1 : findById s pid = .ok (some post)) (h2 : post.user ≠ uid) :
    deletePost s uid pid = (s, .err .Unauthorized) ∧ getPost s pid = .ok post := by
  constructor
  · unfold deletePost
    rw [h1]
    simp [h2]
  · unfold getPost
    rw [h1]

/-- C8 witness: bob cannot delete alice's post `p2`. -/
theorem deletePost_nonOwner_unauthorized_witness :
    findById demoStore "p2" = .ok (some likedPost) ∧ likedPost.user ≠ "bob" ∧
    (deletePost demoStore "bob" "p2" = (demoStore, .err .Unauthorized) ∧
     getPost demoStore "p2" = .ok likedPost) :=
  ⟨by decide, by decide,
   deletePost_nonOwner_unauthorized demoStore "bob" "p2" likedPost (by decide) (by decide)⟩

/-- C2 (code bug): AddComment with empty text never produces the specified
400 ValidationError response.  The handler's validation branch calls
`error.array()` — `error` being the `require('console')` import, not the
`errors` validation result — which throws an uncaught TypeError outside the
`try` block, so no response at all is sent and the post is unchanged. -/
theorem addComment_empty_text_crashes (s : Store) (uid pid fresh : String) :
    addComment s uid pid "" fresh = (s, .crash) := by
  unfold addComment
  rfl

/-- C5: with no existing like by the caller, the first LikePost succeeds and
prepends exactly one new like; an immediate second LikePost by the same
caller fails with AlreadyLiked and leaves the store (hence the likes
sequence) unchanged. -/
theorem likePost_then_again_alreadyLiked (s : Store) (uid pid : String) (post : Post)
    (h1 : findById s pid = .ok (some post))
    (h2 : post.likes.filter (fun l => l.user == uid) = []) :
    likePost s uid pid =
      (save s { post with likes := ⟨uid⟩ :: post.likes }, .ok (⟨uid⟩ :: post.likes)) ∧
    likePost (likePost s uid pid).1 uid pid =
      ((likePost s uid pid).1, .err .AlreadyLiked) := by
  have hfirst : likePost s uid pid =
      (save s { post with likes := ⟨uid⟩ :: post.likes }, .ok (⟨uid⟩ :: post.likes)) := by
    unfold likePost
    rw [h1]
    simp [h2]
  have h1b : findById (save s { post with likes := ⟨uid⟩ :: post.likes }) pid
      = .ok (some { post with likes := ⟨uid⟩ :: post.likes }) :=
    findById_save s pid post _ h1 rfl
  refine ⟨hfirst, ?_⟩
  rw [hfirst]
  unfold likePost
  rw [h1b]
  simp [List.filter_cons]

/-- C5 witness: bob likes p1 once, then again. -/
theorem likePost_then_again_alreadyLiked_witness :
    findById demoStore "p1" = .ok (some demoPost) ∧
    demoPost.likes.filter (fun l => l.user == "bob") = [] ∧
    (likePost demoStore "bob" "p1" =
      (save demoStore { demoPost with likes := ⟨"bob"⟩ :: demoPost.likes },
       .ok (⟨"bob"⟩ :: demoPost.likes)) ∧
     likePost (likePost demoStore "bob" "p1").1 "bob" "p1" =
      ((likePost demoStore "bob" "p1").1, .err .AlreadyLiked)) :=
  ⟨by decide, by decide,
   likePost_then_again_alreadyLiked demoStore "bob" "p1" demoPost (by decide) (by decide)⟩

/-- C6: for an existing post with no like by the caller, LikePost followed by
UnlikePost returns the likes sequence to exactly its original value. -/
theorem like_unlike_roundtrip (s : Store) (uid pid : String) (post : Post)
    (h1 : findById s pid = .ok (some post))
    (h2 : post.likes.filter (fun l => l.user == uid) = []) :
    (likePost s uid pid).2 = .ok (⟨uid⟩ :: post.likes) ∧
    (unlikePost (likePost s uid pid).1 uid pid).2 = .ok post.likes := by
  have hfirst : likePost s uid pid =
      (save s { post with likes := ⟨uid⟩ :: post.likes }, .ok (⟨uid⟩ :: post.likes)) := by
    unfold likePost
    rw [h1]
    simp [h2]
  have h1b : findById (save s { post with likes := ⟨uid⟩ :: post.likes }) pid
      = .ok (some { post with likes := ⟨uid⟩ :: post.likes }) :=
    findById_save s pid post _ h1 rfl
  refine ⟨by rw [hfirst], ?_⟩
  rw [hfirst]
  unfold unlikePost
  rw [h1b]
  simp [List.filter_cons, jsIndexOf, jsIndexOfAux, jsSplice1]

/-- C6 witness: bob likes then unlikes p1. -/
theorem like_unlike_roundtrip_witness :
    findById demoStore "p1" = .ok (some demoPost) ∧
    demoPost.likes.filter (fun l => l.user == "bob") = [] ∧
    ((likePost demoStore "bob" "p1").2 = .ok (⟨"bob"⟩ :: demoPost.likes) ∧
     (unlikePost (likePost demoStore "bob" "p1").1 "bob" "p1").2 = .ok demoPost.likes) :=
  ⟨by decide, by decide,
   like_unlike_roundtrip demoStore "bob" "p1" demoPost (by decide) (by decide)⟩

lemma unlikePost_ok_eq (s : Store) (uid pid : String) (post : Post)
    (h1 : findById s pid = .ok (some post))
    (hex : ∃ l ∈ post.likes, l.user = uid) :
    unlikePost s uid pid =
      (save s { post with likes :=
          post.likes.eraseIdx (post.likes.findIdx (fun l => l.user == uid)) },
       .ok (post.likes.eraseIdx (post.likes.findIdx (fun l => l.user == uid)))) := by
  have hexB : ∃ l ∈ post.likes, (fun l : Like => l.user == uid) l = true := by
    rcases hex with ⟨l, hl, he⟩
    exact ⟨l, hl, beq_iff_eq.mpr he⟩
  have hjlt : post.likes.findIdx (fun l => l.user == uid) < post.likes.length :=
    List.findIdx_lt_length_of_exists hexB
  have hidx : jsIndexOf (post.likes.map (fun l => l.user)) uid =
      ((post.likes.findIdx (fun l => l.user == uid) : Nat) : Int) :=
    jsIndexOf_map_eq_findIdx (fun l => l.user) uid post.likes hex
  have hsplice := jsSplice1_natCast post.likes _ hjlt
  have hlen : (post.likes.filter (fun l => l.user == uid)).length ≠ 0 := by
    intro h0
    rcases hexB with ⟨l, hl, he⟩
    have : l ∈ post.likes.filter (fun l : Like => l.user == uid) :=
      List.mem_filter.mpr ⟨hl, he⟩
    rw [List.length_eq_zero.mp h0] at this
    simp at this
  unfold unlikePost
  rw [h1]
  simp [beq_iff_eq, hlen, hidx, hsplice]

/-- C7: for an existing post, UnlikePost fails with NotLiked exactly when no
like in the post belongs to the caller; otherwise it removes precisely the
first like with user == callerId (linear scan) and leaves every other like,
in order, unchanged. -/
theorem unlikePost_first_match_spec (s : Store) (uid pid : String) (post : Post)
    (h1 : findById s pid = .ok (some post)) :
    (unlikePost s uid pid = (s, .err .NotLiked) ↔ ∀ l ∈ post.likes, l.user ≠ uid) ∧
    ((∃ l ∈ post.likes, l.user = uid) →
      unlikePost s uid pid =
        (save s { post with likes :=
            post.likes.eraseIdx (post.likes.findIdx (fun l => l.user == uid)) },
         .ok (post.likes.eraseIdx (post.likes.findIdx (fun l => l.user == uid))))) := by
  have hfilter_iff : post.likes.filter (fun l => l.user == uid) = [] ↔
      ∀ l ∈ post.likes, l.user ≠ uid := by
    rw [List.filter_eq_nil_iff]
    constructor
    · intro h l hl he
      exact h l hl (beq_iff_eq.mpr he)
    · intro h l hl hb
      exact h l hl (beq_iff_eq.mp hb)
  by_cases hg : post.likes.filter (fun l => l.user == uid) = []
  · have hres : unlikePost s uid pid = (s, .err .NotLiked) := by
      unfold unlikePost
      rw [h1]
      simp [hg]
    refine ⟨iff_of_true hres (hfilter_iff.mp hg), ?_⟩
    intro hex
    rcases hex with ⟨l, hl, he⟩
    exact absurd he (hfilter_iff.mp hg l hl)
  · have hex : ∃ l ∈ post.likes, l.user = uid := by
      have hne := mt hfilter_iff.mpr hg
      push_neg at hne
      exact hne
    have hres := unlikePost_ok_eq s uid pid post h1 hex
    refine ⟨iff_of_false ?_ ?_, fun _ => hres⟩
    · rw [hres]
      simp
    · intro hall
      rcases hex with ⟨l, hl, he⟩
      exact hall l hl he

/-- C7 witness: carol's like on p2 sits at index 1 and is the one removed. -/
theorem unlikePost_first_match_spec_witness :
    findById demoStore "p2" = .ok (some likedPost) ∧
    ((unlikePost demoStore "carol" "p2" = (demoStore, .err .NotLiked) ↔
        ∀ l ∈ likedPost.likes, l.user ≠ "carol") ∧
     ((∃ l ∈ likedPost.likes, l.user = "carol") →
        unlikePost demoStore "carol" "p2" =
          (save demoStore { likedPost with
              likes := likedPost.likes.eraseIdx (likedPost.likes.findIdx (fun l => l.user == "carol")) },
           .ok (likedPost.likes.eraseIdx
                (likedPost.likes.findIdx (fun l => l.user == "carol")))))) :=
  ⟨by decide, unlikePost_first_match_spec demoStore "carol" "p2" likedPost (by decide)⟩

lemma deleteComment_ok_eq (s : Store) (uid pid cid : String)
    (post : Post) (comment : Comment)
    (h1 : findById s pid = .ok (some post))
    (h2 : post.comments.find? (fun c => c.id == cid) = some comment)
    (h3 : comment.user = uid) :
    deleteComment s uid pid cid =
      (save s { post with
          comments := post.comments.eraseIdx (post.comments.findIdx (fun c => c.user == uid)) },
       .ok (post.comments.eraseIdx (post.comments.findIdx (fun c => c.user == uid)))) := by
  have hmem : comment ∈ post.comments := List.mem_of_find?_eq_some h2
  have hex : ∃ c ∈ post.comments, c.user = uid := ⟨comment, hmem, h3⟩
  have hexB : ∃ c ∈ post.comments, (fun c : Comment => c.user == uid) c = true :=
    ⟨comment, hmem, beq_iff_eq.mpr h3⟩
  have hjlt : post.comments.findIdx (fun c => c.user == uid) < post.comments.length :=
    List.findIdx_lt_length_of_exists hexB
  have hidx : jsIndexOf (post.comments.map (fun c => c.user)) uid =
      ((post.comments.findIdx (fun c => c.user == uid) : Nat) : Int) :=
    jsIndexOf_map_eq_findIdx (fun c => c.user) uid post.comments hex
  have hsplice := jsSplice1_natCast post.comments _ hjlt
  unfold deleteComment
  rw [h1]
  simp [h2, h3, hidx, hsplice]

/-- C1: whenever the two guards pass (a comment with id == commentId exists
and its author is the caller), the index DeleteComment removes is the first
index whose comment has user == callerId — a scan by author, not by the
target comment's id — so the comment actually removed is the caller's
most-recent (first-listed) comment, which can differ from the comment with
id == commentId. -/
theorem deleteComment_removes_first_author_comment (s : Store) (uid pid cid : String)
    (post : Post) (comment : Comment)
    (h1 : findById s pid = .ok (some post))
    (h2 : post.comments.find? (fun c => c.id == cid) = some comment)
    (h3 : comment.user = uid) :
    deleteComment s uid pid cid =
      (save s { post with
          comments := post.comments.eraseIdx (post.comments.findIdx (fun c => c.user == uid)) },
       .ok (post.comments.eraseIdx (post.comments.findIdx (fun c => c.user == uid)))) :=
  deleteComment_ok_eq s uid pid cid post comment h1 h2 h3

/-- C1 witness: alice targets her older comment `c1` on p3, but the scan by
author removes her newer comment `c2`; the surviving list still holds `c1`. -/
theorem deleteComment_removes_first_author_comment_witness :
    findById demoStore "p3" = .ok (some twoCommentsPost) ∧
    twoCommentsPost.comments.find? (fun c => c.id == "c1") =
      some ⟨"c1", "older", "Alice", "a.png", "alice"⟩ ∧
    (⟨"c1", "older", "Alice", "a.png", "alice"⟩ : Comment).user = "alice" ∧
    deleteComment demoStore "alice" "p3" "c1" =
      (save demoStore { twoCommentsPost with
          comments := twoCommentsPost.comments.eraseIdx
            (twoCommentsPost.comments.findIdx (fun c => c.user == "alice")) },
       .ok (twoCommentsPost.comments.eraseIdx
            (twoCommentsPost.comments.findIdx (fun c => c.user == "alice")))) ∧
    (deleteComment demoStore "alice" "p3" "c1").2 =
      .ok [⟨"c1", "older", "Alice", "a.png", "alice"⟩] :=
  ⟨by decide, by decide, by decide,
   deleteComment_removes_first_author_comment demoStore "alice" "p3" "c1"
     twoCommentsPost ⟨"c1", "older", "Alice", "a.png", "alice"⟩
     (by decide) (by decide) (by decide),
   by decide⟩

/-- C10: when both guards of DeleteComment pass, the author-id scan
necessarily finds a valid index (`indexOf` is not -1), the splice removes
exactly one element, and the comments sequence shrinks by exactly 1. -/
theorem deleteComment_scan_safe (s : Store) (uid pid cid : String)
    (post : Post) (comment : Comment)
    (h1 : findById s pid = .ok (some post))
    (h2 : post.comments.find? (fun c => c.id == cid) = some comment)
    (h3 : comment.user = uid) :
    0 ≤ jsIndexOf (post.comments.map (fun c => c.user)) uid ∧
    (deleteComment s uid pid cid).2 =
      .ok (post.comments.eraseIdx (post.comments.findIdx (fun c => c.user == uid))) ∧
    (post.comments.eraseIdx (post.comments.findIdx (fun c => c.user == uid))).length + 1
      = post.comments.length := by
  have hmem : comment ∈ post.comments := List.mem_of_find?_eq_some h2
  have hex : ∃ c ∈ post.comments, c.user = uid := ⟨comment, hmem, h3⟩
  have hexB : ∃ c ∈ post.comments, (fun c : Comment => c.user == uid) c = true :=
    ⟨comment, hmem, beq_iff_eq.mpr h3⟩
  have hjlt : post.comments.findIdx (fun c => c.user == uid) < post.comments.length :=
    List.findIdx_lt_length_of_exists hexB
  have hidx : jsIndexOf (post.comments.map (fun c => c.user)) uid =
      ((post.comments.findIdx (fun c => c.user == uid) : Nat) : Int) :=
    jsIndexOf_map_eq_findIdx (fun c => c.user) uid post.comments hex
  refine ⟨?_, ?_, ?_⟩
  · rw [hidx]
    exact Int.natCast_nonneg _
  · rw [deleteComment_ok_eq s uid pid cid post comment h1 h2 h3]
  · rw [List.length_eraseIdx, if_pos hjlt]
    omega

/-- C10 witness: the same guard-passing input as for C1, instantiated. -/
theorem deleteComment_scan_safe_witness :
    findById demoStore "p3" = .ok (some twoCommentsPost) ∧
    twoCommentsPost.comments.find? (fun c => c.id == "c1") =
      some ⟨"c1", "older", "Alice", "a.png", "alice"⟩ ∧
    (⟨"c1", "older", "Alice", "a.png", "alice"⟩ : Comment).user = "alice" ∧
    (0 ≤ jsIndexOf (twoCommentsPost.comments.map (fun c => c.user)) "alice" ∧
     (deleteComment demoStore "alice" "p3" "c1").2 =
       .ok (twoCommentsPost.comments.eraseIdx
            (twoCommentsPost.comments.findIdx (fun c => c.user == "alice"))) ∧
     (twoCommentsPost.comments.eraseIdx
        (twoCommentsPost.comments.findIdx (fun c => c.user == "alice"))).length + 1
       = twoCommentsPost.comments.length) :=
  ⟨by decide, by decide, by decide,
   deleteComment_scan_safe demoStore "alice" "p3" "c1"
     twoCommentsPost ⟨"c1", "older", "Alice", "a.png", "alice"⟩
     (by decide) (by decide) (by decide)⟩

lemma storeInv_save (s : Store) (p1 : Post) (hs : storeInv s) (hp : LikeInv p1) :
    storeInv (save s p1) := by
  intro p hp'
  simp only [save] at hp'
  rcases List.mem_map.mp hp' with ⟨q, hq, hqe⟩
  by_cases hqc : (q.id == p1.id) = true
  · rw [if_pos hqc] at hqe
    rw [← hqe]
    exact hp
  · rw [if_neg hqc] at hqe
    rw [← hqe]
    exact hs q hq

lemma likePost_ok_inv (s : Store) (uid pid : String) (hs : storeInv s) :
    ∀ s1 r, likePost s uid pid = (s1, .ok r) → storeInv s1 := by
  intro s1 r heq
  unfold likePost at heq
  cases hfb : findById s pid with
  | castError =>
    rw [hfb] at heq
    simp at heq
  | ok o =>
    cases o with
    | none =>
      rw [hfb] at heq
      simp at heq
    | some post =>
      rw [hfb] at heq
      simp only [] at heq
      by_cases hg : 0 < (post.likes.filter (fun l => l.user == uid)).length
      · rw [if_pos hg] at heq
        simp at heq
      · rw [if_neg hg] at heq
        simp only [Prod.mk.injEq] at heq
        obtain ⟨hs1, -⟩ := heq
        subst hs1
        have hfe : post.likes.filter (fun l => l.user == uid) = [] := by
          rcases hfl : post.likes.filter (fun l => l.user == uid) with _ | ⟨a, l⟩
          · exact hfl
          · exfalso
            apply hg
            rw [hfl]
            simp
        have hnotin : uid ∉ post.likes.map (fun l => l.user) := by
          intro hin
          rcases List.mem_map.mp hin with ⟨a, ha, hae⟩
          exact (List.filter_eq_nil_iff.mp hfe a ha) (beq_iff_eq.mpr hae)
        apply storeInv_save s _ hs
        unfold LikeInv
        simp only [List.map_cons]
        exact List.nodup_cons.mpr ⟨hnotin, hs post (findById_mem s pid post hfb)⟩

lemma unlikePost_ok_inv (s : Store) (uid pid : String) (hs : storeInv s) :
    ∀ s1 r, unlikePost s uid pid = (s1, .ok r) → storeInv s1 := by
  intro s1 r heq
  cases hfb : findById s pid with
  | castError =>
    unfold unlikePost at heq
    rw [hfb] at heq
    simp at heq
  | ok o =>
    cases o with
    | none =>
      unfold unlikePost at heq
      rw [hfb] at heq
      simp at heq
    | some post =>
      by_cases hg : post.likes.filter (fun l => l.user == uid) = []
      · have hnl : unlikePost s uid pid = (s, .err .NotLiked) := by
          unfold unlikePost
          rw [hfb]
          simp [hg]
        rw [hnl] at heq
        simp at heq
      · have hex : ∃ l ∈ post.likes, l.user = uid := by
          have hne := mt List.filter_eq_nil_iff.mpr hg
          push_neg at hne
          rcases hne with ⟨a, ha, hab⟩
          exact ⟨a, ha, beq_iff_eq.mp hab⟩
        rw [unlikePost_ok_eq s uid pid post hfb hex] at heq
        simp only [Prod.mk.injEq] at heq
        obtain ⟨hs1, -⟩ := heq
        subst hs1
        apply storeInv_save s _ hs
        unfold LikeInv
        exact List.Nodup.sublist
          (List.Sublist.map (fun l => l.user) (List.eraseIdx_sublist post.likes _))
          (hs post (findById_mem s pid post hfb))

lemma addComment_ok_inv (s : Store) (uid pid text fresh : String) (hs : storeInv s) :
    ∀ s1 r, addComment s uid pid text fresh = (s1, .ok r) → storeInv s1 := by
  intro s1 r heq
  unfold addComment at heq
  by_cases ht : (text == "") = true
  · rw [if_pos ht] at heq
    simp at heq
  · rw [if_neg ht] at heq
    cases hlu : lookupUser s uid with
    | none =>
      rw [hlu] at heq
      simp at heq
    | some u =>
      rw [hlu] at heq
      simp only [] at heq
      cases hfb : findById s pid with
      | castError =>
        rw [hfb] at heq
        simp at heq
      | ok o =>
        cases o with
        | none =>
          rw [hfb] at heq
          simp at heq
        | some post =>
          rw [hfb] at heq
          simp only [Prod.mk.injEq] at heq
          obtain ⟨hs1, -⟩ := heq
          subst hs1
          apply storeInv_save s _ hs
          exact hs post (findById_mem s pid post hfb)

lemma deleteComment_ok_inv (s : Store) (uid pid cid : String) (hs : storeInv s) :
    ∀ s1 r, deleteComment s uid pid cid = (s1, .ok r) → storeInv s1 := by
  intro s1 r heq
  unfold deleteComment at heq
  cases hfb : findById s pid with
  | castError =>
    rw [hfb] at heq
    simp at heq
  | ok o =>
    cases o with
    | none =>
      rw [hfb] at heq
      simp at heq
    | some post =>
      rw [hfb] at heq
      simp only [] at heq
      cases hfc : post.comments.find? (fun c => c.id == cid) with
      | none =>
        rw [hfc] at heq
        simp at heq
      | some comment =>
        rw [hfc] at heq
        simp only [] at heq
        by_cases hua : comment.user ≠ uid
        · rw [if_pos hua] at heq
          simp at heq
        · rw [if_neg hua] at heq
          simp only [Prod.mk.injEq] at heq
          obtain ⟨hs1, -⟩ := heq
          subst hs1
          apply storeInv_save s _ hs
          exact hs post (findById_mem s pid post hfb)

/-- C4: the invariant "at most one Like per (post, user) pair" is preserved
by every operation: starting from a store whose posts all satisfy it, a
successful LikePost, UnlikePost, AddComment, or DeleteComment yields a store
whose posts all still satisfy it. -/
theorem operations_preserve_like_invariant (s : Store)
    (uid pid text fresh cid : String) :
    (storeInv s → ∀ s1 r, likePost s uid pid = (s1, .ok r) → storeInv s1) ∧
    (storeInv s → ∀ s1 r, unlikePost s uid pid = (s1, .ok r) → storeInv s1) ∧
    (storeInv s → ∀ s1 r, addComment s uid pid text fresh = (s1, .ok r) → storeInv s1) ∧
    (storeInv s → ∀ s1 r, deleteComment s uid pid cid = (s1, .ok r) → storeInv s1) :=
  ⟨fun hs => likePost_ok_inv s uid pid hs,
   fun hs => unlikePost_ok_inv s uid pid hs,
   fun hs => addComment_ok_inv s uid pid text fresh hs,
   fun hs => deleteComment_ok_inv s uid pid cid hs⟩

/-- C4 witness: the demonstration store satisfies the invariant, and so does
the store left by a successful LikePost. -/
theorem operations_preserve_like_invariant_witness :
    storeInv demoStore ∧ storeInv (likePost demoStore "bob" "p1").1 :=
  ⟨by decide,
   (operations_preserve_like_invariant demoStore "bob" "p1" "hi" "f1" "c9").1
     (by decide) (likePost demoStore "bob" "p1").1 (⟨"bob"⟩ :: demoPost.likes) rfl⟩
